import Mathlib

/-!
# Gazebo: world removal test (`gazebo/physics/PhysicsIface_TEST.cc`)

A shallow embedding of the test helper `WorldTopicCount`, of the test body
`PhysicsIfaceTest::RemoveWorldTest`, and of the world registry / topic
directory the test drives.

* `std::string` is a Lean `String`, searched through its list of characters
  (one character standing for one code unit of the C++ string).
* `std::map<std::string, std::list<std::string>>` is the list of its
  `(key, value)` pairs in iteration order; every statement below holds for all
  such lists, sorted by key or not.
* `unsigned int` is 32 bits wide: a `Nat` reduced modulo `2 ^ 32` at every
  increment.
* `long` (the type of `use_count()`) is an `Int`; `int sleep` only takes the
  values 0 to 10 and is a `Nat`.
-/

namespace Gazebo

/-! ## `std::string::find` -/

/-- Scan of `std::string::find`: the first position at or after `pos` at which
`pat` occurs in the remaining text, `none` standing for `std::string::npos`. -/
def findFrom (pat : List Char) : List Char → Nat → Option Nat
  | [], pos => if pat.isPrefixOf [] then some pos else none
  | c :: cs, pos =>
    if pat.isPrefixOf (c :: cs) then some pos else findFrom pat cs (pos + 1)

/-- The call `s.find(pat)` of `std::string`: position of the first occurrence
of `pat` in `s`, or `none` for `std::string::npos`. -/
def find (s pat : String) : Option Nat :=
  findFrom pat.data s.data 0

/-! ## `WorldTopicCount` -/

/-- Number of values of a 32-bit `unsigned int`. -/
def UINT_RANGE : Nat := 2 ^ 32

/-- A topic directory as returned by `transport::getAdvertisedTopics()`:
message type, then the list of topic names advertised with that type. -/
abbrev MsgTypes := List (String × List String)

/-- Inner loop of `WorldTopicCount` (`for (auto topic : msgType.second)`),
started with the running value of `count`. -/
def countTopics (count : Nat) : List String → Nat
  | [] => count
  | topic :: rest =>
    if find topic "/gazebo/default" ≠ none then
      countTopics ((count + 1) % UINT_RANGE) rest
    else
      countTopics count rest

/-- Outer loop of `WorldTopicCount` (`for (auto msgType : _msgTypes)`). -/
def countMsgTypes (count : Nat) : MsgTypes → Nat
  | [] => count
  | msgType :: rest => countMsgTypes (countTopics count msgType.2) rest

/-- `unsigned int WorldTopicCount(std::map<std::string,
std::list<std::string>> &_msgTypes)`. -/
def WorldTopicCount (_msgTypes : MsgTypes) : Nat :=
  countMsgTypes 0 _msgTypes

/-! ### Reference notions used to state what `WorldTopicCount` computes -/

/-- The text `"/gazebo/default"` occurs in `topic` as a contiguous substring. -/
def ContainsDefault (topic : String) : Prop :=
  "/gazebo/default".data <:+: topic.data

/-- The name `topic` begins with `"/gazebo/default"`. -/
def BeginsWithDefault (topic : String) : Prop :=
  "/gazebo/default".data <+: topic.data

instance (topic : String) : Decidable (ContainsDefault topic) := by
  unfold ContainsDefault; infer_instance

instance (topic : String) : Decidable (BeginsWithDefault topic) := by
  unfold BeginsWithDefault; infer_instance

/-- Total number of topic entries of a directory. -/
def totalEntries (m : MsgTypes) : Nat :=
  (m.map (fun msgType => msgType.2.length)).sum

/-- Sum over the message types of the number of entries containing
`"/gazebo/default"`. -/
def containingEntries (m : MsgTypes) : Nat :=
  (m.map (fun msgType => msgType.2.countP (fun t => decide (ContainsDefault t)))).sum

/-- Sum over the message types of the number of entries beginning with
`"/gazebo/default"`. -/
def prefixedEntries (m : MsgTypes) : Nat :=
  (m.map (fun msgType => msgType.2.countP (fun t => decide (BeginsWithDefault t)))).sum

/-! ## `PhysicsIfaceTest::RemoveWorldTest`

The test drives the physics and transport libraries; they are taken as an
interface `PhysicsIface` over an arbitrary library state `σ`, with `W` and `P`
the objects a non-null `WorldPtr` and `PhysicsEnginePtr` point to. -/

/-- Library entry points in the order a run of the test reaches them. -/
inductive Call where
  | Load (worldFile : String) (paused : Bool) (physics : String)
  | MSleep (ms : Nat)
  | get_world (name : String)
  | GetPhysicsEngine
  | getAdvertisedTopics
  | remove_worlds
  | gzdbg
  | resetPhysicsEngine
  | resetWorld
  deriving DecidableEq, Repr

/-- The functions of the physics and transport libraries that the test calls.
`get_world` may throw (`Except.error`); a shared pointer is `none` when null;
`releaseWorld` and `releaseEngine` drop one handle held by the test. -/
structure PhysicsIface (σ W P : Type) where
  Load : String → Bool → String → σ → σ
  MSleep : Nat → σ → σ
  get_world : String → σ → Except Unit (Option W) × σ
  worldUseCount : W → σ → Int
  GetPhysicsEngine : W → σ → Option P × σ
  engineUseCount : P → σ → Int
  getAdvertisedTopics : σ → MsgTypes × σ
  remove_worlds : σ → σ
  releaseWorld : W → σ → σ
  releaseEngine : P → σ → σ

/-- State of a run of the test: the library state, the two shared pointers the
test holds as local variables, the calls made so far, the assertions evaluated
so far (source line and outcome), and whether an exception escaped. -/
structure TestState (σ W P : Type) where
  sys : σ
  world : Option W
  physicsEngine : Option P
  calls : List Call
  checks : List (Nat × Bool)
  threw : Bool

/-- Computations of the test body. -/
abbrev TestM (σ W P : Type) := StateM (TestState σ W P)

section Test

variable {σ W P : Type}

/-- Evaluate the assertion at source line `line`; the result is its outcome. -/
def check (line : Nat) (holds : Bool) : TestM σ W P Bool :=
  fun st => (holds, { st with checks := st.checks ++ [(line, holds)] })

/-- Record a library call and apply its effect on the library state. -/
def call (c : Call) (f : σ → σ) : TestM σ W P Unit :=
  fun st => ((), { st with sys := f st.sys, calls := st.calls ++ [c] })

/-- The waiting loop `while (sleep < maxSleep) { MSleep(300); sleep++; }`. -/
def sleepLoop (I : PhysicsIface σ W P) (sleep maxSleep : Nat) : TestM σ W P Unit :=
  if sleep < maxSleep then do
    call (Call.MSleep 300) (I.MSleep 300)
    sleepLoop I (sleep + 1) maxSleep
  else
    pure ()
termination_by maxSleep - sleep

/-- The value of `world.use_count()`: 0 for a null pointer. -/
def worldUseCount (I : PhysicsIface σ W P) : TestM σ W P Int :=
  fun st => (match st.world with
    | some w => I.worldUseCount w st.sys
    | none => 0, st)

/-- The value of `physicsEngine.use_count()`: 0 for a null pointer. -/
def engineUseCount (I : PhysicsIface σ W P) : TestM σ W P Int :=
  fun st => (match st.physicsEngine with
    | some p => I.engineUseCount p st.sys
    | none => 0, st)

/-- The statement `physicsEngine.reset()`, also run when the variable goes out
of scope; nothing happens on a null pointer. -/
def resetPhysicsEngine (I : PhysicsIface σ W P) : TestM σ W P Unit :=
  fun st => match st.physicsEngine with
    | some p => ((), { st with sys := I.releaseEngine p st.sys, physicsEngine := none,
                               calls := st.calls ++ [Call.resetPhysicsEngine] })
    | none => ((), st)

/-- The statement `world.reset()`, also run when the variable goes out of
scope; nothing happens on a null pointer. -/
def resetWorld (I : PhysicsIface σ W P) : TestM σ W P Unit :=
  fun st => match st.world with
    | some w => ((), { st with sys := I.releaseWorld w st.sys, world := none,
                               calls := st.calls ++ [Call.resetWorld] })
    | none => ((), st)

/-- The call `physics::get_world(name)`: `none` when it throws. -/
def getWorld (I : PhysicsIface σ W P) (name : String) : TestM σ W P (Option (Option W)) :=
  fun st => match I.get_world name st.sys with
    | (Except.ok w, sys) => (some w, { st with sys := sys, calls := st.calls ++ [Call.get_world name] })
    | (Except.error _, sys) => (none, { st with sys := sys, calls := st.calls ++ [Call.get_world name] })

/-- The call `transport::getAdvertisedTopics()`. -/
def getAdvertisedTopics (I : PhysicsIface σ W P) : TestM σ W P MsgTypes :=
  fun st => ((I.getAdvertisedTopics st.sys).1,
    { st with sys := (I.getAdvertisedTopics st.sys).2,
              calls := st.calls ++ [Call.getAdvertisedTopics] })

/-- Statements of `PhysicsIfaceTest::RemoveWorldTest`, lines 53 to 135. A
failing `ASSERT_TRUE` returns; a failing `EXPECT_*` is recorded and the run
goes on. -/
def RemoveWorldTest.body (I : PhysicsIface σ W P) (_physicsEngine : String) :
    TestM σ W P Unit := do
  if _physicsEngine ≠ "ode" then
    return
  -- Load a world with some models
  call (Call.Load "test/worlds/gps_test.world" false _physicsEngine)
    (I.Load "test/worlds/gps_test.world" false _physicsEngine)
  -- Give time for everything to be created
  let maxSleep := 10
  sleepLoop I 0 maxSleep
  -- Get world pointer
  match ← getWorld I "default" with
  | none =>
    modify fun st => { st with threw := true }
    return
  | some w => modify fun st => { st with world := w }
  if !(← check 71 (← get).world.isSome) then
    return
  let worldPtrCount ← worldUseCount I
  let _ ← check 74 (decide (worldPtrCount > 1))
  -- Get physics engine pointer
  match (← get).world with
  | none => return
  | some w =>
    modify fun st => { st with physicsEngine := (I.GetPhysicsEngine w st.sys).1,
                               sys := (I.GetPhysicsEngine w st.sys).2,
                               calls := st.calls ++ [Call.GetPhysicsEngine] }
  if !(← check 78 (← get).physicsEngine.isSome) then
    return
  let physicsEnginePtrCount ← engineUseCount I
  let _ ← check 81 (decide (physicsEnginePtrCount > 1))
  -- Check advertised topics
  let msgTypes ← getAdvertisedTopics I
  let _ ← check 85 (!msgTypes.isEmpty)
  let worldTopicCount := WorldTopicCount msgTypes
  let _ ← check 88 (decide (worldTopicCount > 0))
  -- Stats before removing world
  call Call.gzdbg id
  -- Remove world
  call Call.remove_worlds I.remove_worlds
  -- Give time for everything to be removed
  sleepLoop I 0 maxSleep
  -- Check the only shared pointer left to the physics engine is this one
  let _ ← check 109 (decide ((← engineUseCount I) < physicsEnginePtrCount))
  let _ ← check 110 (decide ((← engineUseCount I) = 1))
  -- Release the last physics engine pointer
  resetPhysicsEngine I
  -- Check the only pointer left to the world is this one
  let _ ← check 116 (decide ((← worldUseCount I) < worldPtrCount))
  let _ ← check 117 (decide ((← worldUseCount I) = 1))
  -- Release the last world pointer
  resetWorld I
  -- Check we can't get the world pointer
  match ← getWorld I "default" with
  | none => pure ()
  | some w => modify fun st => { st with world := w }
  if !(← check 130 (← get).world.isNone) then
    return
  -- Check all topics related to that world are gone
  let msgTypes ← getAdvertisedTopics I
  let _ ← check 134 (decide (WorldTopicCount msgTypes < worldTopicCount))
  let _ ← check 135 (decide (WorldTopicCount msgTypes = 0))

/-- `void PhysicsIfaceTest::RemoveWorldTest(const std::string &_physicsEngine)`:
the statements of the body, then the two local shared pointers go out of
scope (`physicsEngine` was declared last and is destroyed first). -/
def PhysicsIfaceTest.RemoveWorldTest (I : PhysicsIface σ W P) (_physicsEngine : String) :
    TestM σ W P Unit := do
  RemoveWorldTest.body I _physicsEngine
  resetPhysicsEngine I
  resetWorld I

/-- State in which a test case starts: nothing held, called or checked. -/
def TestState.start (sys : σ) : TestState σ W P :=
  { sys := sys, world := none, physicsEngine := none, calls := [], checks := [], threw := false }

/-- `TEST_P(PhysicsIfaceTest, RemoveWorldTest)`: one run of the test body with
the parameter `GetParam()`, from a fresh test state. -/
def TEST_P_RemoveWorldTest (I : PhysicsIface σ W P) (GetParam : String) (sys : σ) :
    TestState σ W P :=
  ((PhysicsIfaceTest.RemoveWorldTest I GetParam).run (TestState.start sys)).2

end Test

/-! ## World registry, teardown and topic directory

`physics::get_world`, `physics::remove_worlds` and
`transport::getAdvertisedTopics` are not part of the sources at hand; the
definitions of this section follow the specification (sections 3, 4 and 6). -/

/-- Modelled from the spec: the states of a World, `Active → RemovalRequested →
Draining → Finalized` (section 4.2); the implementation of the world lifecycle
is missing from the sources. -/
inductive WorldState where
  | Active
  | RemovalRequested
  | Draining
  | Finalized
  deriving DecidableEq, Repr

/-- Modelled from the spec: a World (section 3) together with the holders of
shared handles to it: the registry, the teardown coordinator (its placeholder),
and external holders; `engineExternalHandles` counts the handles to its
PhysicsEngine held outside the World. The World class is missing from the
sources. -/
structure World where
  name : String
  id : Nat
  state : WorldState
  registryHandle : Bool
  placeholderHandle : Bool
  externalHandles : Nat
  engineExternalHandles : Nat
  deriving DecidableEq, Repr

/-- Modelled from the spec: the observable count of a `SharedHandle<World>`
(section 3), one per holder; the shared pointer type is missing from the
sources. -/
def World.useCount (w : World) : Nat :=
  (if w.registryHandle then 1 else 0) + (if w.placeholderHandle then 1 else 0)
    + w.externalHandles

/-- Modelled from the spec: the process-wide core (section 2): the
WorldRegistry, the TopicDirectory, and the source of fresh instance
identities; it is missing from the sources. -/
structure Core where
  worlds : List World
  topics : MsgTypes
  nextId : Nat
  deriving DecidableEq, Repr

/-- Modelled from the spec: the core before any world is created and before
any topic is advertised; it is missing from the sources. -/
def Core.init : Core :=
  { worlds := [], topics := [], nextId := 0 }

/-- Modelled from the spec: failure of `create` (sections 6 and 7); the
registry is missing from the sources. -/
inductive CoreError where
  | AlreadyExists
  deriving DecidableEq, Repr

/-- Modelled from the spec: `topicNamespacePrefix`, "derived from `name`"
(section 3), here the namespace `/gazebo/<name>` that the test looks for; the
transport naming code is missing from the sources. -/
def topicNamespace (name : String) : String :=
  "/gazebo/" ++ name

/-- Modelled from the spec: a topic name "falls under the world's namespace
prefix" (section 4.2, step 1) when it begins with it; the transport naming
code is missing from the sources. -/
def underNamespace (ns topic : String) : Bool :=
  ns.data.isPrefixOf topic.data

/-- Modelled from the spec: `advertise(type, topicName)`, "registers
`topicName` under `type`; idempotent" (section 4.3); the TopicDirectory is
missing from the sources. -/
def advertise (type topic : String) (d : MsgTypes) : MsgTypes :=
  if d.any (fun e => e.1 = type) then
    d.map (fun e => if e.1 = type then (e.1, if topic ∈ e.2 then e.2 else e.2 ++ [topic]) else e)
  else
    d ++ [(type, [topic])]

/-- Modelled from the spec: `unadvertise(type, topicName)`, "removes the entry;
no-op if absent" (section 4.3); the TopicDirectory is missing from the
sources. -/
def unadvertise (type topic : String) (d : MsgTypes) : MsgTypes :=
  d.map (fun e => if e.1 = type then (e.1, e.2.filter (fun t => t ≠ topic)) else e)

/-- Modelled from the spec: `enumerate()`, a snapshot of the directory
(section 4.3), what `transport::getAdvertisedTopics()` returns; the
TopicDirectory is missing from the sources. -/
def enumerate (c : Core) : MsgTypes :=
  c.topics

/-- Modelled from the spec: teardown step 1, "retract every topic whose name
falls under the world's namespace prefix from TopicDirectory" (section 4.2);
the TeardownCoordinator is missing from the sources. -/
def retract (ns : String) (d : MsgTypes) : MsgTypes :=
  d.map (fun e => (e.1, e.2.filter (fun t => !underNamespace ns t)))

/-- Modelled from the spec: `create(name)` (section 4.1): "fails with
`AlreadyExists` if `name` is already registered and Active. Creates the World,
its PhysicsEngine, advertises its topic namespace, stores the registry's own
handle, and returns a second independent handle to the caller." The topics
advertised are given by `adverts`, message type and name below the namespace.
The registry is missing from the sources. -/
def create (name : String) (adverts : List (String × String)) (c : Core) :
    Except CoreError Nat × Core :=
  if c.worlds.any (fun w => decide (w.name = name ∧ w.state = WorldState.Active)) then
    (Except.error CoreError.AlreadyExists, c)
  else
    (Except.ok c.nextId,
      { worlds := c.worlds ++ [{ name := name, id := c.nextId, state := WorldState.Active,
                                 registryHandle := true, placeholderHandle := false,
                                 externalHandles := 1, engineExternalHandles := 0 }],
        topics := adverts.foldl
          (fun d a => advertise a.1 (topicNamespace name ++ a.2) d) c.topics,
        nextId := c.nextId + 1 })

/-- Modelled from the spec: a world that is not "past the RemovalRequested
state" (section 4.1, `lookup`); the registry is missing from the sources. -/
def World.resolvable (w : World) : Bool :=
  decide (w.state = WorldState.Active ∨ w.state = WorldState.RemovalRequested)

/-- Modelled from the spec: `lookup(name)` (section 4.1): "returns none if
`name` is unknown or the world is past the RemovalRequested state; never raises
an error"; a handle returned is one more external handle to that instance.
The registry (`physics::get_world`) is missing from the sources. -/
def lookup (name : String) (c : Core) : Option Nat × Core :=
  match c.worlds.find? (fun w => decide (w.name = name) && w.resolvable) with
  | none => (none, c)
  | some w =>
    (some w.id,
      { c with worlds := c.worlds.map (fun v =>
          if v.id = w.id then { v with externalHandles := v.externalHandles + 1 } else v) })

/-- Modelled from the spec: an external holder releases one handle to the
World instance `id` (section 3, SharedHandle); the shared pointer type is
missing from the sources. -/
def release (id : Nat) (c : Core) : Core :=
  { c with worlds := c.worlds.map (fun v =>
      if v.id = id ∧ 0 < v.externalHandles then
        { v with externalHandles := v.externalHandles - 1 } else v) }

/-- Modelled from the spec: a holder of the World instance `id` takes a handle
to its PhysicsEngine, which exists until the World is finalized (section 3);
the World class is missing from the sources. -/
def acquireEngine (id : Nat) (c : Core) : Core :=
  { c with worlds := c.worlds.map (fun v =>
      if v.id = id ∧ v.state ≠ WorldState.Finalized then
        { v with engineExternalHandles := v.engineExternalHandles + 1 } else v) }

/-- Modelled from the spec: an external holder releases one handle to the
PhysicsEngine of the World instance `id` (section 3); the shared pointer type
is missing from the sources. -/
def releaseEngine (id : Nat) (c : Core) : Core :=
  { c with worlds := c.worlds.map (fun v =>
      if v.id = id ∧ 0 < v.engineExternalHandles then
        { v with engineExternalHandles := v.engineExternalHandles - 1 } else v) }

/-- Modelled from the spec: `removeAll` "transitions [an Active world] to
RemovalRequested" (section 4.1); the registry is missing from the sources. -/
def requestRemoval (w : World) : World :=
  { w with state := WorldState.RemovalRequested }

/-- Modelled from the spec: teardown steps 2 and 3 for one world (section
4.2): the registry's own handle is released, the coordinator keeps its
placeholder for the monitor, and the world is Draining; the
TeardownCoordinator is missing from the sources. -/
def drain (w : World) : World :=
  { w with state := WorldState.Draining, registryHandle := false, placeholderHandle := true }

/-- Modelled from the spec: `removeAll()` (sections 4.1 and 4.2): for every
registered world in Active state, retract its topics, release the registry's
handle and leave it Draining; worlds in another state are left as they are.
The registry (`physics::remove_worlds`) is missing from the sources. -/
def removeAll (c : Core) : Core :=
  { c with
    topics := c.worlds.foldl
      (fun d w => if w.state = WorldState.Active then retract (topicNamespace w.name) d else d)
      c.topics,
    worlds := c.worlds.map (fun w =>
      if w.state = WorldState.Active then drain (requestRemoval w) else w) }

/-- Modelled from the spec: one pass of the background monitor (section 4.2,
step 4): a Draining world whose count is exactly one (the placeholder) and
whose PhysicsEngine is held by no one else is finalized, the placeholder
released; the TeardownCoordinator is missing from the sources. -/
def monitor (c : Core) : Core :=
  { c with worlds := c.worlds.map (fun w =>
      if w.state = WorldState.Draining ∧ w.useCount = 1 ∧ w.engineExternalHandles = 0 then
        { w with state := WorldState.Finalized, placeholderHandle := false } else w) }

/-- Modelled from the spec: the operations of the core API (section 6) and of
handle holders, as one step each; the core is missing from the sources. -/
inductive Op where
  | create (name : String) (adverts : List (String × String))
  | lookup (name : String)
  | release (id : Nat)
  | acquireEngine (id : Nat)
  | releaseEngine (id : Nat)
  | removeAll
  | monitor
  | advertise (type topic : String)
  | unadvertise (type topic : String)
  deriving DecidableEq, Repr

/-- Modelled from the spec: the effect of one operation on the core; the core
is missing from the sources. -/
def step (c : Core) : Op → Core
  | Op.create name adverts => (create name adverts c).2
  | Op.lookup name => (lookup name c).2
  | Op.release id => release id c
  | Op.acquireEngine id => acquireEngine id c
  | Op.releaseEngine id => releaseEngine id c
  | Op.removeAll => removeAll c
  | Op.monitor => monitor c
  | Op.advertise type topic => { c with topics := advertise type topic c.topics }
  | Op.unadvertise type topic => { c with topics := unadvertise type topic c.topics }

/-- Modelled from the spec: the states the core reaches from its initial state
by a sequence of operations; the core is missing from the sources. -/
def Reachable (c : Core) : Prop :=
  ∃ ops : List Op, ops.foldl step Core.init = c

/-- Modelled from the spec: the observable count of the handles to the World
of identity `id` (section 3), 0 when there is no such World; the shared
pointer type is missing from the sources. -/
def useCount (c : Core) (id : Nat) : Nat :=
  match c.worlds.find? (fun w => decide (w.id = id)) with
  | some w => w.useCount
  | none => 0

/-- A world named `name` is registered and Active. -/
def Registered (c : Core) (name : String) : Prop :=
  ∃ w ∈ c.worlds, w.name = name ∧ w.state = WorldState.Active

/-! ## Predicates used in the statements and proofs -/

/-- Well-formedness of the registry: no world rests in the transient state
RemovalRequested, instance identities are fresh and distinct, at most one
Active world bears a given name, and an Active world is held by the registry. -/
structure Inv (c : Core) : Prop where
  noTransient : ∀ w ∈ c.worlds, w.state ≠ WorldState.RemovalRequested
  idLt : ∀ w ∈ c.worlds, w.id < c.nextId
  idInj : ∀ w ∈ c.worlds, ∀ v ∈ c.worlds, w.id = v.id → w = v
  activeUnique : ∀ w ∈ c.worlds, ∀ v ∈ c.worlds, w.state = WorldState.Active →
    v.state = WorldState.Active → w.name = v.name → w = v
  activeRegistry : ∀ w ∈ c.worlds, w.state = WorldState.Active → w.registryHandle = true

/-- An update of single worlds that keeps identity and name and never makes a
world Active or RemovalRequested. -/
structure Update (g : World → World) : Prop where
  id_eq : ∀ w, (g w).id = w.id
  name_eq : ∀ w, (g w).name = w.name
  notTransient : ∀ w, w.state ≠ WorldState.RemovalRequested →
    (g w).state ≠ WorldState.RemovalRequested
  active : ∀ w, (g w).state = WorldState.Active → w.state = WorldState.Active
  registry : ∀ w, (g w).state = WorldState.Active → w.registryHandle = true →
    (g w).registryHandle = true

/-- The instance `id` is registered under `name` and Active. -/
def Live (c : Core) (name : String) (id : Nat) : Prop :=
  ∃ w ∈ c.worlds, w.id = id ∧ w.name = name ∧ w.state = WorldState.Active

/-- Every topic name of the directory satisfies `Q`. -/
def AllTopics (Q : String → Prop) (d : MsgTypes) : Prop :=
  ∀ e ∈ d, ∀ t ∈ e.2, Q t

/-- The name `t` falls under the namespace of a world that is registered and
Active, hence removed by `removeAll`. -/
def underRemoved (c : Core) (t : String) : Bool :=
  c.worlds.any (fun w =>
    decide (w.state = WorldState.Active) && underNamespace (topicNamespace w.name) t)

/-- Number of entries whose name contains "/gazebo/default" and falls under the
namespace of no world that `removeAll` removes. -/
def survivingEntries (c : Core) : Nat :=
  (c.topics.map (fun e =>
    e.2.countP (fun t => decide (ContainsDefault t) && !underRemoved c t))).sum

/-- Number of entries whose name contains "/gazebo/default" and falls under the
namespace of a world that `removeAll` removes. -/
def retractedEntries (c : Core) : Nat :=
  (c.topics.map (fun e =>
    e.2.countP (fun t => decide (ContainsDefault t) && underRemoved c t))).sum

/-- A library in which no world ever exists: every call leaves the state as it
is, `get_world` returns null and no topic is advertised. -/
def noWorldIface : PhysicsIface Unit Unit Unit :=
  { Load := fun _ _ _ s => s
    MSleep := fun _ s => s
    get_world := fun _ s => (Except.ok none, s)
    worldUseCount := fun _ _ => 0
    GetPhysicsEngine := fun _ s => (none, s)
    engineUseCount := fun _ _ => 0
    getAdvertisedTopics := fun s => ([], s)
    remove_worlds := fun s => s
    releaseWorld := fun _ s => s
    releaseEngine := fun _ s => s }

/-- Two directories with the same message types in the same order and, for
each of them, topic lists with the same set of member names. -/
def SameMembers (m1 m2 : MsgTypes) : Prop :=
  List.Forall₂ (fun a b => a.1 = b.1 ∧ ∀ t, t ∈ a.2 ↔ t ∈ b.2) m1 m2

/-- Two directories with the same message types in the same order and, for
each of them, the same topic names with the same multiplicities. -/
def SameEntries (m1 m2 : MsgTypes) : Prop :=
  List.Forall₂ (fun a b => a.1 = b.1 ∧ a.2.Perm b.2) m1 m2

/-! ## Facts about `find` and `WorldTopicCount` -/

theorem findFrom_isSome_iff (pat : List Char) (s : List Char) (pos : Nat) :
    (findFrom pat s pos).isSome = true ↔ pat <:+: s := by
  induction s generalizing pos with
  | nil =>
    by_cases h : pat.isPrefixOf [] = true
    · have hp : pat <+: [] := List.isPrefixOf_iff_prefix.mp h
      simp [findFrom, h, hp.isInfix]
    · have hp : ¬ pat <:+: [] := fun hi => h (List.isPrefixOf_iff_prefix.mpr
        (by rw [List.infix_nil] at hi; subst hi; exact List.prefix_refl _))
      simp [findFrom, h, hp]
  | cons c cs ih =>
    by_cases h : pat.isPrefixOf (c :: cs) = true
    · have hp : pat <+: c :: cs := List.isPrefixOf_iff_prefix.mp h
      simp [findFrom, h, hp.isInfix]
    · have hp : ¬ pat <+: c :: cs := fun hi => h (List.isPrefixOf_iff_prefix.mpr hi)
      rw [findFrom, if_neg h, ih, List.infix_cons_iff]
      tauto

theorem find_ne_none_iff (topic : String) :
    find topic "/gazebo/default" ≠ none ↔ ContainsDefault topic := by
  unfold find ContainsDefault
  rw [← findFrom_isSome_iff _ _ 0, Option.isSome_iff_ne_none]

theorem beginsWith_containsDefault (topic : String) (h : BeginsWithDefault topic) :
    ContainsDefault topic :=
  List.IsPrefix.isInfix h

theorem countTopics_eq (l : List String) (count : Nat) (h : count < UINT_RANGE) :
    countTopics count l
      = (count + l.countP (fun t => decide (ContainsDefault t))) % UINT_RANGE := by
  induction l generalizing count with
  | nil => simp [countTopics, Nat.mod_eq_of_lt h]
  | cons topic rest ih =>
    by_cases hc : ContainsDefault topic
    · have hf : find topic "/gazebo/default" ≠ none := (find_ne_none_iff topic).mpr hc
      rw [countTopics, if_pos hf, ih _ (Nat.mod_lt _ (by decide)),
        List.countP_cons_of_pos _ _ (by simpa using hc)]
      rw [Nat.mod_add_mod]
      congr 1
      omega
    · have hf : ¬ find topic "/gazebo/default" ≠ none :=
        fun hx => hc ((find_ne_none_iff topic).mp hx)
      rw [countTopics, if_neg hf, ih _ h,
        List.countP_cons_of_neg _ _ (by simpa using hc)]

theorem countTopics_lt (l : List String) (count : Nat) (h : count < UINT_RANGE) :
    countTopics count l < UINT_RANGE := by
  rw [countTopics_eq l count h]
  exact Nat.mod_lt _ (by decide)

theorem countMsgTypes_eq (m : MsgTypes) (count : Nat) (h : count < UINT_RANGE) :
    countMsgTypes count m = (count + containingEntries m) % UINT_RANGE := by
  induction m generalizing count with
  | nil => simp [countMsgTypes, containingEntries, Nat.mod_eq_of_lt h]
  | cons msgType rest ih =>
    rw [countMsgTypes, ih _ (countTopics_lt _ _ h), countTopics_eq _ _ h]
    have hs : containingEntries (msgType :: rest)
        = msgType.2.countP (fun t => decide (ContainsDefault t)) + containingEntries rest := by
      simp [containingEntries]
    rw [hs, Nat.mod_add_mod, Nat.add_assoc]

theorem worldTopicCount_eq_mod (m : MsgTypes) :
    WorldTopicCount m = containingEntries m % UINT_RANGE := by
  rw [WorldTopicCount, countMsgTypes_eq m 0 (by decide), Nat.zero_add]

theorem containingEntries_le_total (m : MsgTypes) :
    containingEntries m ≤ totalEntries m := by
  induction m with
  | nil => simp [containingEntries, totalEntries]
  | cons msgType rest ih =>
    have h1 : containingEntries (msgType :: rest)
        = msgType.2.countP (fun t => decide (ContainsDefault t)) + containingEntries rest := by
      simp [containingEntries]
    have h2 : totalEntries (msgType :: rest) = msgType.2.length + totalEntries rest := by
      simp [totalEntries]
    have h3 := List.countP_le_length (fun t => decide (ContainsDefault t)) (l := msgType.2)
    omega

theorem worldTopicCount_eq (m : MsgTypes) (h : totalEntries m < UINT_RANGE) :
    WorldTopicCount m = containingEntries m := by
  rw [worldTopicCount_eq_mod]
  exact Nat.mod_eq_of_lt (lt_of_le_of_lt (containingEntries_le_total m) h)

theorem containingEntries_append (a b : MsgTypes) :
    containingEntries (a ++ b) = containingEntries a + containingEntries b := by
  simp [containingEntries]

theorem totalEntries_append (a b : MsgTypes) :
    totalEntries (a ++ b) = totalEntries a + totalEntries b := by
  simp [totalEntries]

theorem containingEntries_eq_zero_iff (m : MsgTypes) :
    containingEntries m = 0
      ↔ ∀ msgType ∈ m, ∀ topic ∈ msgType.2, ¬ ContainsDefault topic := by
  induction m with
  | nil => simp [containingEntries]
  | cons msgType rest ih =>
    have h1 : containingEntries (msgType :: rest)
        = msgType.2.countP (fun t => decide (ContainsDefault t)) + containingEntries rest := by
      simp [containingEntries]
    rw [h1, Nat.add_eq_zero_iff, ih, List.countP_eq_zero]
    simp

/-! ## Invariants of the registry -/

theorem Inv.map {c : Core} (h : Inv c) {g : World → World} (hg : Update g) (t : MsgTypes) :
    Inv { worlds := c.worlds.map g, topics := t, nextId := c.nextId } := by
  constructor
  · intro w hw
    obtain ⟨w0, hw0, rfl⟩ := List.mem_map.mp hw
    exact hg.notTransient w0 (h.noTransient w0 hw0)
  · intro w hw
    obtain ⟨w0, hw0, rfl⟩ := List.mem_map.mp hw
    rw [hg.id_eq]
    exact h.idLt w0 hw0
  · intro w hw v hv hid
    obtain ⟨w0, hw0, rfl⟩ := List.mem_map.mp hw
    obtain ⟨v0, hv0, rfl⟩ := List.mem_map.mp hv
    rw [hg.id_eq, hg.id_eq] at hid
    rw [h.idInj w0 hw0 v0 hv0 hid]
  · intro w hw v hv hwa hva hname
    obtain ⟨w0, hw0, rfl⟩ := List.mem_map.mp hw
    obtain ⟨v0, hv0, rfl⟩ := List.mem_map.mp hv
    rw [hg.name_eq, hg.name_eq] at hname
    rw [h.activeUnique w0 hw0 v0 hv0 (hg.active _ hwa) (hg.active _ hva) hname]
  · intro w hw hwa
    obtain ⟨w0, hw0, rfl⟩ := List.mem_map.mp hw
    exact hg.registry w0 hwa (h.activeRegistry w0 hw0 (hg.active _ hwa))

theorem update_lookup (id : Nat) :
    Update (fun v => if v.id = id then { v with externalHandles := v.externalHandles + 1 } else v) := by
  constructor <;> intro w <;> dsimp only <;> split <;> simp_all

theorem update_release (id : Nat) :
    Update (fun v => if v.id = id ∧ 0 < v.externalHandles then
      { v with externalHandles := v.externalHandles - 1 } else v) := by
  constructor <;> intro w <;> dsimp only <;> split <;> simp_all

theorem update_acquireEngine (id : Nat) :
    Update (fun v => if v.id = id ∧ v.state ≠ WorldState.Finalized then
      { v with engineExternalHandles := v.engineExternalHandles + 1 } else v) := by
  constructor <;> intro w <;> dsimp only <;> split <;> simp_all

theorem update_releaseEngine (id : Nat) :
    Update (fun v => if v.id = id ∧ 0 < v.engineExternalHandles then
      { v with engineExternalHandles := v.engineExternalHandles - 1 } else v) := by
  constructor <;> intro w <;> dsimp only <;> split <;> simp_all

theorem update_removeAll :
    Update (fun w => if w.state = WorldState.Active then drain (requestRemoval w) else w) := by
  constructor <;> intro w <;> dsimp only <;> split <;> simp_all [drain, requestRemoval]

theorem update_monitor :
    Update (fun w =>
      if w.state = WorldState.Draining ∧ w.useCount = 1 ∧ w.engineExternalHandles = 0 then
        { w with state := WorldState.Finalized, placeholderHandle := false } else w) := by
  constructor <;> intro w <;> dsimp only <;> split <;> simp_all

theorem Inv.init : Inv Core.init := by
  constructor <;> simp [Core.init]

theorem Inv.topics {c : Core} (h : Inv c) (t : MsgTypes) : Inv { c with topics := t } :=
  ⟨h.noTransient, h.idLt, h.idInj, h.activeUnique, h.activeRegistry⟩

theorem create_error {name : String} {adverts : List (String × String)} {c : Core}
    (h : ∃ w ∈ c.worlds, w.name = name ∧ w.state = WorldState.Active) :
    create name adverts c = (Except.error CoreError.AlreadyExists, c) := by
  have hany : c.worlds.any (fun w => decide (w.name = name ∧ w.state = WorldState.Active)) = true := by
    rw [List.any_eq_true]
    obtain ⟨w, hw, h1, h2⟩ := h
    exact ⟨w, hw, by simp [h1, h2]⟩
  rw [create, if_pos hany]

theorem create_ok {name : String} {adverts : List (String × String)} {c : Core}
    (h : ¬ ∃ w ∈ c.worlds, w.name = name ∧ w.state = WorldState.Active) :
    create name adverts c = (Except.ok c.nextId,
      { worlds := c.worlds ++ [{ name := name, id := c.nextId, state := WorldState.Active,
                                 registryHandle := true, placeholderHandle := false,
                                 externalHandles := 1, engineExternalHandles := 0 }],
        topics := adverts.foldl
          (fun d a => advertise a.1 (topicNamespace name ++ a.2) d) c.topics,
        nextId := c.nextId + 1 }) := by
  have hany : ¬ c.worlds.any (fun w => decide (w.name = name ∧ w.state = WorldState.Active)) = true := by
    rw [List.any_eq_true]
    rintro ⟨w, hw, h1⟩
    exact h ⟨w, hw, by simpa using h1⟩
  rw [create, if_neg hany]

theorem Inv.create {c : Core} (h : Inv c) (name : String) (adverts : List (String × String)) :
    Inv (create name adverts c).2 := by
  by_cases hex : ∃ w ∈ c.worlds, w.name = name ∧ w.state = WorldState.Active
  · rw [create_error hex]
    exact h
  · rw [create_ok hex]
    constructor
    · intro w hw
      rcases List.mem_append.mp hw with hw | hw
      · exact h.noTransient w hw
      · rw [List.mem_singleton.mp hw]
        simp
    · intro w hw
      rcases List.mem_append.mp hw with hw | hw
      · exact Nat.lt_succ_of_lt (h.idLt w hw)
      · rw [List.mem_singleton.mp hw]
        exact Nat.lt_succ_self _
    · intro w hw v hv hid
      rcases List.mem_append.mp hw with hw | hw <;> rcases List.mem_append.mp hv with hv | hv
      · exact h.idInj w hw v hv hid
      · rw [List.mem_singleton.mp hv] at hid
        have := h.idLt w hw
        dsimp only at hid
        omega
      · rw [List.mem_singleton.mp hw] at hid
        have := h.idLt v hv
        dsimp only at hid
        omega
      · rw [List.mem_singleton.mp hw, List.mem_singleton.mp hv]
    · intro w hw v hv hwa hva hname
      rcases List.mem_append.mp hw with hw | hw <;> rcases List.mem_append.mp hv with hv | hv
      · exact h.activeUnique w hw v hv hwa hva hname
      · rw [List.mem_singleton.mp hv] at hname
        exact absurd ⟨w, hw, hname, hwa⟩ hex
      · rw [List.mem_singleton.mp hw] at hname
        exact absurd ⟨v, hv, hname.symm, hva⟩ hex
      · rw [List.mem_singleton.mp hw, List.mem_singleton.mp hv]
    · intro w hw hwa
      rcases List.mem_append.mp hw with hw | hw
      · exact h.activeRegistry w hw hwa
      · rw [List.mem_singleton.mp hw]

theorem lookup_worlds (name : String) (c : Core) :
    (∃ id, (lookup name c).2 = Core.mk (c.worlds.map (fun v =>
        if v.id = id then { v with externalHandles := v.externalHandles + 1 } else v))
        c.topics c.nextId)
    ∨ (lookup name c).2 = c := by
  unfold lookup
  split
  · right; rfl
  · rename_i w _
    left; exact ⟨w.id, rfl⟩

theorem inv_step {c : Core} (h : Inv c) (op : Op) : Inv (step c op) := by
  cases op with
  | create name adverts => exact h.create name adverts
  | lookup name =>
    rcases lookup_worlds name c with ⟨id, hid⟩ | hsame
    · rw [step, hid]; exact h.map (update_lookup id) _
    · rw [step, hsame]; exact h
  | release id => exact h.map (update_release id) _
  | acquireEngine id => exact h.map (update_acquireEngine id) _
  | releaseEngine id => exact h.map (update_releaseEngine id) _
  | removeAll => exact h.map update_removeAll _
  | monitor => exact h.map update_monitor _
  | advertise type topic => exact h.topics _
  | unadvertise type topic => exact h.topics _

theorem inv_foldl {c : Core} (h : Inv c) (ops : List Op) : Inv (ops.foldl step c) := by
  induction ops generalizing c with
  | nil => exact h
  | cons op rest ih => exact ih (inv_step h op)

theorem Reachable.inv {c : Core} (h : Reachable c) : Inv c := by
  obtain ⟨ops, rfl⟩ := h
  exact inv_foldl Inv.init ops

/-! ## Lookup after removal -/

theorem removeAll_not_resolvable {c : Core} (h : Inv c) :
    ∀ w ∈ (removeAll c).worlds, w.resolvable = false := by
  intro w hw
  obtain ⟨w0, hw0, rfl⟩ := List.mem_map.mp hw
  have hnt := h.noTransient w0 hw0
  by_cases ha : w0.state = WorldState.Active
  · simp [ha, drain, requestRemoval, World.resolvable]
  · simp [ha, hnt, World.resolvable]

theorem lookup_none_of_not_resolvable (name : String) (c : Core)
    (h : ∀ w ∈ c.worlds, w.resolvable = false) : lookup name c = (none, c) := by
  have hf : c.worlds.find? (fun w => decide (w.name = name) && w.resolvable) = none := by
    rw [List.find?_eq_none]
    intro w hw
    simp [h w hw]
  rw [lookup, hf]

/-! ## Lookup of a live world -/

theorem live_map {c : Core} {name : String} {id : Nat} (h : Live c name id)
    {g : World → World} (hg : Update g)
    (hkeep : ∀ w, w.state = WorldState.Active → (g w).state = WorldState.Active)
    (t : MsgTypes) (n : Nat) :
    Live { worlds := c.worlds.map g, topics := t, nextId := n } name id := by
  obtain ⟨w, hw, h1, h2, h3⟩ := h
  exact ⟨g w, List.mem_map.mpr ⟨w, hw, rfl⟩, by rw [hg.id_eq, h1], by rw [hg.name_eq, h2],
    hkeep w h3⟩

theorem live_step {c : Core} {name : String} {id : Nat} (h : Live c name id) (op : Op)
    (hop : op ≠ Op.removeAll) : Live (step c op) name id := by
  cases op with
  | create name2 adverts =>
    by_cases hex : ∃ w ∈ c.worlds, w.name = name2 ∧ w.state = WorldState.Active
    · rw [step, create_error hex]; exact h
    · rw [step, create_ok hex]
      obtain ⟨w, hw, h1⟩ := h
      exact ⟨w, List.mem_append.mpr (Or.inl hw), h1⟩
  | lookup name2 =>
    rcases lookup_worlds name2 c with ⟨i, hid⟩ | hsame
    · rw [step, hid]
      exact live_map h (update_lookup i) (by intro w hw; split <;> simp_all) _ _
    · rw [step, hsame]; exact h
  | release i =>
    exact live_map h (update_release i) (by intro w hw; split <;> simp_all) _ _
  | acquireEngine i =>
    exact live_map h (update_acquireEngine i) (by intro w hw; split <;> simp_all) _ _
  | releaseEngine i =>
    exact live_map h (update_releaseEngine i) (by intro w hw; split <;> simp_all) _ _
  | removeAll => exact absurd rfl hop
  | monitor =>
    exact live_map h update_monitor (by intro w hw; split <;> simp_all) _ _
  | advertise type topic => exact h
  | unadvertise type topic => exact h

theorem live_foldl {c : Core} {name : String} {id : Nat} (h : Live c name id) (ops : List Op)
    (hops : Op.removeAll ∉ ops) : Live (ops.foldl step c) name id := by
  induction ops generalizing c with
  | nil => exact h
  | cons op rest ih =>
    have h1 : op ≠ Op.removeAll := fun he => hops (by rw [he]; exact List.mem_cons_self _ _)
    have h2 : Op.removeAll ∉ rest := fun hm => hops (List.mem_cons_of_mem _ hm)
    exact ih (live_step h op h1) h2

theorem live_create {c : Core} {name : String} {adverts : List (String × String)}
    {id : Nat} {c1 : Core} (h : create name adverts c = (Except.ok id, c1)) :
    Live c1 name id := by
  by_cases hex : ∃ w ∈ c.worlds, w.name = name ∧ w.state = WorldState.Active
  · rw [create_error hex] at h
    cases h
  · rw [create_ok hex] at h
    injection h with h1 h2
    injection h1 with h1
    subst h1 h2
    exact ⟨_, List.mem_append.mpr (Or.inr (List.mem_singleton.mpr rfl)), rfl, rfl, rfl⟩

theorem lookup_live {c : Core} (hc : Inv c) {name : String} {id : Nat} (h : Live c name id) :
    (lookup name c).1 = some id ∧ 1 < useCount (lookup name c).2 id := by
  obtain ⟨w, hw, hid, hname, hact⟩ := h
  have hreg := hc.activeRegistry w hw hact
  cases hf : c.worlds.find? (fun w => decide (w.name = name) && w.resolvable) with
  | none =>
    rw [List.find?_eq_none] at hf
    exact absurd (by simp [hname, hact, World.resolvable]) (hf w hw)
  | some v =>
    have hv := List.mem_of_find?_eq_some hf
    have hp := List.find?_some hf
    simp only [Bool.and_eq_true, decide_eq_true_eq, World.resolvable] at hp
    have hva : v.state = WorldState.Active := by
      rcases hp.2 with h1 | h1
      · exact h1
      · exact absurd h1 (hc.noTransient v hv)
    have hvw : v = w := hc.activeUnique v hv w hw hva hact (hp.1.trans hname.symm)
    subst hvw
    have hl : lookup name c = (some v.id, { c with worlds := c.worlds.map (fun u =>
        if u.id = v.id then { u with externalHandles := u.externalHandles + 1 } else u) }) := by
      rw [lookup, hf]
    rw [hl]
    refine ⟨by rw [hid], ?_⟩
    dsimp only
    unfold useCount
    dsimp only
    cases hg : (c.worlds.map (fun u =>
        if u.id = v.id then { u with externalHandles := u.externalHandles + 1 } else u)).find?
        (fun w => decide (w.id = id)) with
    | none =>
      rw [List.find?_eq_none] at hg
      exact absurd (by simp [hid]) (hg _ (List.mem_map.mpr ⟨v, hw, rfl⟩))
    | some u =>
      have hu := List.mem_of_find?_eq_some hg
      have hq := List.find?_some hg
      simp only [decide_eq_true_eq] at hq
      obtain ⟨u0, hu0, rfl⟩ := List.mem_map.mp hu
      have hu0id : u0.id = v.id := by
        by_cases hx : u0.id = v.id
        · exact hx
        · simp only [hx, if_false] at hq
          exact absurd (hq.trans hid.symm) hx
      have huv : u0 = v := hc.idInj u0 hu0 v hw hu0id
      subst huv
      simp only [World.useCount, hreg, if_true]
      omega

/-! ## Topic retraction -/

theorem allTopics_retract {Q : String → Prop} {d : MsgTypes} (h : AllTopics Q d) (ns : String) :
    AllTopics Q (retract ns d) := by
  intro e he t ht
  obtain ⟨e0, he0, rfl⟩ := List.mem_map.mp he
  exact h e0 he0 t (List.mem_filter.mp ht).1

theorem allTopics_retract_self (ns : String) (d : MsgTypes) :
    AllTopics (fun t => underNamespace ns t = false) (retract ns d) := by
  intro e he t ht
  obtain ⟨e0, _, rfl⟩ := List.mem_map.mp he
  simpa using (List.mem_filter.mp ht).2

theorem allTopics_foldl {Q : String → Prop} (l : List World) {d : MsgTypes}
    (h : AllTopics Q d) :
    AllTopics Q (l.foldl (fun d w =>
      if w.state = WorldState.Active then retract (topicNamespace w.name) d else d) d) := by
  induction l generalizing d with
  | nil => exact h
  | cons v rest ih =>
    rw [List.foldl_cons]
    apply ih
    split
    · exact allTopics_retract h _
    · exact h

theorem allTopics_foldl_active (l : List World) (d : MsgTypes) (w : World) (hw : w ∈ l)
    (ha : w.state = WorldState.Active) :
    AllTopics (fun t => underNamespace (topicNamespace w.name) t = false)
      (l.foldl (fun d w =>
        if w.state = WorldState.Active then retract (topicNamespace w.name) d else d) d) := by
  induction l generalizing d with
  | nil => cases hw
  | cons v rest ih =>
    rw [List.foldl_cons]
    rcases List.mem_cons.mp hw with hv | hv
    · subst hv
      rw [if_pos ha]
      exact allTopics_foldl rest (allTopics_retract_self _ _)
    · exact ih _ hv

theorem underNamespace_false_iff (ns t : String) :
    underNamespace ns t = false ↔ ¬ ns.data <+: t.data := by
  unfold underNamespace
  rw [← List.isPrefixOf_iff_prefix, Bool.not_eq_true]

theorem worldTopicCount_eq_zero_of_none {m : MsgTypes}
    (h : AllTopics (fun t => ¬ ContainsDefault t) m) : WorldTopicCount m = 0 := by
  rw [worldTopicCount_eq_mod, (containingEntries_eq_zero_iff m).mpr h]
  rfl

theorem containingEntries_perm {m1 m2 : MsgTypes}
    (h : List.Forall₂ (fun a b => a.1 = b.1 ∧ a.2.Perm b.2) m1 m2) :
    containingEntries m1 = containingEntries m2 := by
  induction h with
  | nil => rfl
  | cons hab _ ih =>
    simp only [containingEntries, List.map_cons, List.sum_cons] at ih ⊢
    rw [ih, hab.2.countP_eq]

/-! ## What survives the retraction -/

theorem foldl_retract_eq (l : List World) (d : MsgTypes) :
    l.foldl (fun d w =>
        if w.state = WorldState.Active then retract (topicNamespace w.name) d else d) d
      = d.map (fun e => (e.1, e.2.filter (fun t => !(l.any (fun w =>
          decide (w.state = WorldState.Active) && underNamespace (topicNamespace w.name) t))))) := by
  induction l generalizing d with
  | nil => simp
  | cons v rest ih =>
    rw [List.foldl_cons, ih]
    by_cases ha : v.state = WorldState.Active
    · rw [if_pos ha, retract, List.map_map]
      apply List.map_congr_left
      intro e _
      simp only [Function.comp_apply, List.filter_filter, List.any_cons, ha, decide_True,
        Bool.true_and, Bool.not_or]
      congr 1
      apply List.filter_congr
      intro t _
      rw [Bool.and_comm]
    · rw [if_neg ha]
      apply List.map_congr_left
      intro e _
      simp [ha]

theorem enumerate_removeAll (c : Core) :
    enumerate (removeAll c)
      = c.topics.map (fun e => (e.1, e.2.filter (fun t => !underRemoved c t))) :=
  foldl_retract_eq c.worlds c.topics

theorem containingEntries_filtered (q : String → Bool) (d : MsgTypes) :
    containingEntries (d.map (fun e => (e.1, e.2.filter (fun t => !q t))))
      = (d.map (fun e => e.2.countP (fun t => decide (ContainsDefault t) && !q t))).sum := by
  unfold containingEntries
  rw [List.map_map]
  congr 1
  apply List.map_congr_left
  intro e _
  simp only [Function.comp_apply, List.countP_filter]

theorem countP_split (p q : String → Bool) (l : List String) :
    l.countP p = l.countP (fun t => p t && !q t) + l.countP (fun t => p t && q t) := by
  induction l with
  | nil => rfl
  | cons t rest ih =>
    simp only [List.countP_cons, ih]
    cases p t <;> cases q t <;> simp <;> omega

theorem containingEntries_split (c : Core) :
    containingEntries c.topics = survivingEntries c + retractedEntries c := by
  unfold containingEntries survivingEntries retractedEntries
  generalize underRemoved c = q
  induction c.topics with
  | nil => rfl
  | cons e rest ih =>
    simp only [List.map_cons, List.sum_cons, ih]
    rw [countP_split (fun t => decide (ContainsDefault t)) q e.2]
    omega

theorem totalEntries_filtered (q : String → Bool) (d : MsgTypes) :
    totalEntries (d.map (fun e => (e.1, e.2.filter (fun t => !q t)))) ≤ totalEntries d := by
  induction d with
  | nil => simp [totalEntries]
  | cons e rest ih =>
    simp only [totalEntries, List.map_cons, List.sum_cons] at ih ⊢
    have := List.length_filter_le (fun t => !q t) e.2
    omega

theorem retractedEntries_pos_iff (c : Core) :
    0 < retractedEntries c
      ↔ ∃ e ∈ c.topics, ∃ t ∈ e.2, ContainsDefault t ∧ underRemoved c t = true := by
  unfold retractedEntries
  generalize underRemoved c = q
  induction c.topics with
  | nil => simp
  | cons e rest ih =>
    simp only [List.map_cons, List.sum_cons, List.mem_cons, exists_eq_or_imp]
    rw [← ih, Nat.add_pos_iff_pos_or_pos, List.countP_pos_iff]
    simp

theorem survivingEntries_eq_zero_iff (c : Core) :
    survivingEntries c = 0
      ↔ ∀ e ∈ c.topics, ∀ t ∈ e.2, ContainsDefault t → underRemoved c t = true := by
  unfold survivingEntries
  generalize underRemoved c = q
  induction c.topics with
  | nil => simp
  | cons e rest ih =>
    simp only [List.map_cons, List.sum_cons, List.mem_cons, forall_eq_or_imp]
    rw [← ih, Nat.add_eq_zero_iff, List.countP_eq_zero]
    simp

theorem worldTopicCount_removeAll (c : Core) (h : totalEntries (enumerate c) < UINT_RANGE) :
    WorldTopicCount (enumerate (removeAll c)) = survivingEntries c := by
  have ht := totalEntries_filtered (underRemoved c) c.topics
  rw [worldTopicCount_eq _ (by rw [enumerate_removeAll]; exact lt_of_le_of_lt ht h),
    enumerate_removeAll, containingEntries_filtered]
  rfl

theorem underRemoved_of_beginsWith {c : Core} (hreg : Registered c "default") {t : String}
    (ht : BeginsWithDefault t) : underRemoved c t = true := by
  obtain ⟨w, hw, hname, hact⟩ := hreg
  unfold underRemoved
  rw [List.any_eq_true]
  refine ⟨w, hw, ?_⟩
  rw [hname]
  simp only [hact, decide_True, Bool.true_and]
  exact List.isPrefixOf_iff_prefix.mpr ht

/-! ## The concrete scenario of the specification (section 8) -/

/-- The scenario of section 8 on the modelled core: created "default" and a
second handle taken, the count is 3; `removeAll` leaves no topic of the world
and the count at 3 (two callers and the placeholder); one release gives 2 and
`lookup` still returns none; the second release gives the floor 1, the monitor
finalizes the world, and `create` succeeds again with a new instance. -/
theorem spec_scenario :
    useCount ([Op.create "default" [("gazebo.msgs.WorldStatistics", "/world_stats")],
        Op.lookup "default"].foldl step Core.init) 0 = 3
    ∧ enumerate ([Op.create "default" [("gazebo.msgs.WorldStatistics", "/world_stats")],
        Op.lookup "default", Op.removeAll].foldl step Core.init)
        = [("gazebo.msgs.WorldStatistics", [])]
    ∧ useCount ([Op.create "default" [("gazebo.msgs.WorldStatistics", "/world_stats")],
        Op.lookup "default", Op.removeAll].foldl step Core.init) 0 = 3
    ∧ useCount ([Op.create "default" [("gazebo.msgs.WorldStatistics", "/world_stats")],
        Op.lookup "default", Op.removeAll, Op.release 0].foldl step Core.init) 0 = 2
    ∧ (lookup "default" ([Op.create "default"
        [("gazebo.msgs.WorldStatistics", "/world_stats")],
        Op.lookup "default", Op.removeAll, Op.release 0].foldl step Core.init)).1 = none
    ∧ useCount ([Op.create "default" [("gazebo.msgs.WorldStatistics", "/world_stats")],
        Op.lookup "default", Op.removeAll, Op.release 0, Op.release 0].foldl
        step Core.init) 0 = 1
    ∧ (([Op.create "default" [("gazebo.msgs.WorldStatistics", "/world_stats")],
        Op.lookup "default", Op.removeAll, Op.release 0, Op.release 0, Op.monitor].foldl
        step Core.init).worlds.map (fun w => w.state)) = [WorldState.Finalized]
    ∧ (create "default" [] ([Op.create "default"
        [("gazebo.msgs.WorldStatistics", "/world_stats")],
        Op.lookup "default", Op.removeAll, Op.release 0, Op.release 0, Op.monitor].foldl
        step Core.init)).1.toOption = some 1 := by
  decide

/-! ## The claims -/

/-- C1: in every state the registry reaches, once `removeAll` has run the
lookup of a world name that was registered and Active before, "default"
included, yields no world and changes nothing. -/
theorem C1_lookup_none_after_removeAll (c : Core) (hc : Reachable c) (name : String)
    (hreg : Registered c name) :
    lookup name (removeAll c) = (none, removeAll c) := by
  obtain ⟨_, _, _, _⟩ := hreg
  exact lookup_none_of_not_resolvable name _ (removeAll_not_resolvable hc.inv)

theorem C1_lookup_none_after_removeAll_witness :
    Registered ([Op.create "default" []].foldl step Core.init) "default"
    ∧ lookup "default" (removeAll ([Op.create "default" []].foldl step Core.init))
        = (none, removeAll ([Op.create "default" []].foldl step Core.init)) :=
  ⟨⟨_, List.mem_singleton.mpr rfl, rfl, rfl⟩,
   C1_lookup_none_after_removeAll _ ⟨[Op.create "default" []], rfl⟩ "default"
    ⟨_, List.mem_singleton.mpr rfl, rfl, rfl⟩⟩

/-- C2, as stated, fails in both parts, on a topic advertised outside the
world's namespace whose name contains "/gazebo/default". With a world "default"
that advertises one topic, `WorldTopicCount` goes from 2 to 1 at `removeAll`,
not to 0. With a world "default" that advertises no topic, it is 1 before and 1
after: positive before and not strictly smaller after. -/
theorem C2_counterexample :
    (Registered ([Op.advertise "gazebo.msgs.Pose" "/gazebo/robot/gazebo/default",
        Op.create "default" [("gazebo.msgs.WorldStatistics", "/world_stats")]].foldl
        step Core.init) "default"
      ∧ enumerate ([Op.advertise "gazebo.msgs.Pose" "/gazebo/robot/gazebo/default",
        Op.create "default" [("gazebo.msgs.WorldStatistics", "/world_stats")]].foldl
        step Core.init)
        = [("gazebo.msgs.Pose", ["/gazebo/robot/gazebo/default"]),
           ("gazebo.msgs.WorldStatistics", ["/gazebo/default/world_stats"])]
      ∧ enumerate (removeAll ([Op.advertise "gazebo.msgs.Pose" "/gazebo/robot/gazebo/default",
        Op.create "default" [("gazebo.msgs.WorldStatistics", "/world_stats")]].foldl
        step Core.init))
        = [("gazebo.msgs.Pose", ["/gazebo/robot/gazebo/default"]),
           ("gazebo.msgs.WorldStatistics", [])]
      ∧ WorldTopicCount (enumerate ([Op.advertise "gazebo.msgs.Pose" "/gazebo/robot/gazebo/default",
        Op.create "default" [("gazebo.msgs.WorldStatistics", "/world_stats")]].foldl
        step Core.init)) = 2
      ∧ WorldTopicCount (enumerate (removeAll ([Op.advertise "gazebo.msgs.Pose" "/gazebo/robot/gazebo/default",
        Op.create "default" [("gazebo.msgs.WorldStatistics", "/world_stats")]].foldl
        step Core.init))) = 1)
    ∧ (Registered ([Op.advertise "gazebo.msgs.Pose" "/gazebo/robot/gazebo/default",
        Op.create "default" []].foldl step Core.init) "default"
      ∧ enumerate ([Op.advertise "gazebo.msgs.Pose" "/gazebo/robot/gazebo/default",
        Op.create "default" []].foldl step Core.init)
        = [("gazebo.msgs.Pose", ["/gazebo/robot/gazebo/default"])]
      ∧ WorldTopicCount (enumerate ([Op.advertise "gazebo.msgs.Pose" "/gazebo/robot/gazebo/default",
        Op.create "default" []].foldl step Core.init)) = 1
      ∧ WorldTopicCount (enumerate (removeAll ([Op.advertise "gazebo.msgs.Pose" "/gazebo/robot/gazebo/default",
        Op.create "default" []].foldl step Core.init))) = 1) :=
  ⟨⟨⟨_, List.mem_singleton.mpr rfl, rfl, rfl⟩, by decide, by decide, by decide, by decide⟩,
   ⟨⟨_, List.mem_singleton.mpr rfl, rfl, rfl⟩, by decide, by decide, by decide⟩⟩

/-- C2, amended: after `removeAll`, whatever handles are still held, no
advertised topic of any message type begins with the namespace of a world that
was registered and Active. For the world "default": when every advertised name
that contains "/gazebo/default" also begins with it, `WorldTopicCount` of the
directory is 0 afterwards, and strictly smaller than a positive count taken
before. For a directory of fewer than 2^32 entries, the count afterwards is the
number of entries whose name contains "/gazebo/default" and falls under the
namespace of no removed world; it never exceeds the count before; it is 0
exactly when every name containing "/gazebo/default" falls under the namespace
of a removed world; it is strictly smaller than the count before exactly when
some name containing "/gazebo/default" falls under the namespace of a removed
world, in particular whenever some advertised name begins with
"/gazebo/default". -/
theorem C2_topics_retracted (c : Core) (name : String) (hreg : Registered c name) :
    AllTopics (fun t => ¬ (topicNamespace name).data <+: t.data) (enumerate (removeAll c))
    ∧ (name = "default" →
        (AllTopics (fun t => ContainsDefault t → BeginsWithDefault t) (enumerate c) →
          WorldTopicCount (enumerate (removeAll c)) = 0
          ∧ (0 < WorldTopicCount (enumerate c) →
              WorldTopicCount (enumerate (removeAll c)) < WorldTopicCount (enumerate c)))
        ∧ (totalEntries (enumerate c) < 2 ^ 32 →
            WorldTopicCount (enumerate (removeAll c)) = survivingEntries c
            ∧ WorldTopicCount (enumerate (removeAll c)) ≤ WorldTopicCount (enumerate c)
            ∧ (WorldTopicCount (enumerate (removeAll c)) = 0
                ↔ ∀ e ∈ enumerate c, ∀ t ∈ e.2, ContainsDefault t → underRemoved c t = true)
            ∧ (WorldTopicCount (enumerate (removeAll c)) < WorldTopicCount (enumerate c)
                ↔ ∃ e ∈ enumerate c, ∃ t ∈ e.2, ContainsDefault t ∧ underRemoved c t = true)
            ∧ ((∃ e ∈ enumerate c, ∃ t ∈ e.2, BeginsWithDefault t) →
                WorldTopicCount (enumerate (removeAll c)) < WorldTopicCount (enumerate c)))) := by
  have hreg0 := hreg
  obtain ⟨w, hw, hname, hact⟩ := hreg
  have h1 : AllTopics (fun t => ¬ (topicNamespace name).data <+: t.data)
      (enumerate (removeAll c)) := by
    intro e he t ht
    have := allTopics_foldl_active c.worlds c.topics w hw hact e he t ht
    rw [hname] at this
    exact (underNamespace_false_iff _ _).mp this
  refine ⟨h1, ?_⟩
  intro hdef
  subst hdef
  refine ⟨?_, ?_⟩
  · intro hpre
    have h2 : AllTopics (fun t => ContainsDefault t → BeginsWithDefault t)
        (enumerate (removeAll c)) := allTopics_foldl c.worlds hpre
    have h3 : WorldTopicCount (enumerate (removeAll c)) = 0 :=
      worldTopicCount_eq_zero_of_none (fun e he t ht hc => h1 e he t ht (h2 e he t ht hc))
    exact ⟨h3, fun hpos => by rw [h3]; exact hpos⟩
  · intro hlt
    have hafter := worldTopicCount_removeAll c hlt
    have hbefore : WorldTopicCount (enumerate c) = survivingEntries c + retractedEntries c := by
      rw [worldTopicCount_eq _ hlt]
      exact containingEntries_split c
    have hstrict : WorldTopicCount (enumerate (removeAll c)) < WorldTopicCount (enumerate c)
        ↔ ∃ e ∈ enumerate c, ∃ t ∈ e.2, ContainsDefault t ∧ underRemoved c t = true := by
      rw [hafter, hbefore]
      exact Iff.trans (by omega) (retractedEntries_pos_iff c)
    refine ⟨hafter, by rw [hafter, hbefore]; omega, ?_, hstrict, ?_⟩
    · rw [hafter]
      exact survivingEntries_eq_zero_iff c
    · rintro ⟨e, he, t, ht, hb⟩
      exact hstrict.mpr ⟨e, he, t, ht, beginsWith_containsDefault t hb,
        underRemoved_of_beginsWith hreg0 hb⟩

theorem C2_topics_retracted_witness :
    (Registered ([Op.create "default" [("gazebo.msgs.WorldStatistics", "/world_stats")],
        Op.lookup "default"].foldl step Core.init) "default"
      ∧ WorldTopicCount (enumerate ([Op.create "default" [("gazebo.msgs.WorldStatistics", "/world_stats")],
        Op.lookup "default"].foldl step Core.init)) = 1
      ∧ WorldTopicCount (enumerate (removeAll ([Op.create "default" [("gazebo.msgs.WorldStatistics", "/world_stats")],
        Op.lookup "default"].foldl step Core.init))) = 0)
    ∧ (Registered ([Op.advertise "gazebo.msgs.Pose" "/gazebo/robot/gazebo/default",
        Op.create "default" [("gazebo.msgs.WorldStatistics", "/world_stats")]].foldl
        step Core.init) "default"
      ∧ WorldTopicCount (enumerate (removeAll ([Op.advertise "gazebo.msgs.Pose" "/gazebo/robot/gazebo/default",
        Op.create "default" [("gazebo.msgs.WorldStatistics", "/world_stats")]].foldl
        step Core.init)))
          < WorldTopicCount (enumerate ([Op.advertise "gazebo.msgs.Pose" "/gazebo/robot/gazebo/default",
        Op.create "default" [("gazebo.msgs.WorldStatistics", "/world_stats")]].foldl
        step Core.init))) :=
  ⟨⟨⟨_, List.mem_singleton.mpr rfl, rfl, rfl⟩, by decide,
    ((C2_topics_retracted _ "default" ⟨_, List.mem_singleton.mpr rfl, rfl, rfl⟩).2 rfl).1
      (by unfold AllTopics; decide) |>.1⟩,
   ⟨⟨_, List.mem_singleton.mpr rfl, rfl, rfl⟩,
    (((C2_topics_retracted _ "default" ⟨_, List.mem_singleton.mpr rfl, rfl, rfl⟩).2 rfl).2
      (by decide)).2.2.2.2 (by decide)⟩⟩

/-- C5: a world created successfully under `name` is, after any further
operations other than `removeAll`, still what `lookup name` returns: a handle to
the very instance `create` returned, whose use count is greater than 1. -/
theorem C5_lookup_after_create (c : Core) (hc : Reachable c) (name : String)
    (adverts : List (String × String)) (id : Nat) (c1 : Core)
    (hcreate : create name adverts c = (Except.ok id, c1))
    (ops : List Op) (hops : Op.removeAll ∉ ops) :
    (lookup name (ops.foldl step c1)).1 = some id
    ∧ 1 < useCount (lookup name (ops.foldl step c1)).2 id := by
  have hinv : Inv c1 := by
    have := hc.inv.create name adverts
    rw [hcreate] at this
    exact this
  exact lookup_live (inv_foldl hinv ops) (live_foldl (live_create hcreate) ops hops)

theorem C5_lookup_after_create_witness :
    (lookup "default" ([Op.lookup "default", Op.release 0, Op.release 0].foldl step
        (create "default" [] Core.init).2)).1 = some 0
    ∧ 1 < useCount (lookup "default" ([Op.lookup "default", Op.release 0, Op.release 0].foldl
        step (create "default" [] Core.init).2)).2 0 :=
  C5_lookup_after_create Core.init ⟨[], rfl⟩ "default" [] 0 _ rfl _ (by decide)

/-- C6, as stated, fails: a name that contains "/gazebo/default" without
beginning with it is counted. -/
theorem C6_counterexample :
    WorldTopicCount [("gazebo.msgs.Pose", ["/gazebo/robot/gazebo/default"])] = 1
    ∧ prefixedEntries [("gazebo.msgs.Pose", ["/gazebo/robot/gazebo/default"])] = 0
    ∧ ¬ BeginsWithDefault "/gazebo/robot/gazebo/default" := by
  decide

/-- C6, amended: `WorldTopicCount` returns the number of topic entries whose
name contains "/gazebo/default" anywhere (modulo 2^32, and exactly when the
directory has fewer than 2^32 entries); a name beginning with it is one of
them, and an entry whose name does not contain it never changes the count. -/
theorem C6_counts_names_containing (m : MsgTypes) :
    WorldTopicCount m = containingEntries m % 2 ^ 32
    ∧ (totalEntries m < 2 ^ 32 →
        WorldTopicCount m = containingEntries m ∧ prefixedEntries m ≤ WorldTopicCount m)
    ∧ (∀ topic, BeginsWithDefault topic → ContainsDefault topic)
    ∧ (∀ (count : Nat) (topic : String) (rest : List String), ¬ ContainsDefault topic →
        countTopics count (topic :: rest) = countTopics count rest) := by
  refine ⟨worldTopicCount_eq_mod m, fun h => ⟨worldTopicCount_eq m h, ?_⟩,
    beginsWith_containsDefault, ?_⟩
  · rw [worldTopicCount_eq m h]
    unfold prefixedEntries containingEntries
    apply List.sum_le_sum
    intro e _
    exact List.countP_mono_left (fun t _ ht => by
      simp only [decide_eq_true_eq] at ht ⊢
      exact beginsWith_containsDefault t ht) 
  · intro count topic rest hc
    have hf : ¬ find topic "/gazebo/default" ≠ none :=
      fun hx => hc ((find_ne_none_iff topic).mp hx)
    rw [countTopics, if_neg hf]

theorem C6_counts_names_containing_witness :
    WorldTopicCount [("gazebo.msgs.Pose", ["/gazebo/default/pose/info", "/gazebo/robot/gazebo/default"]),
      ("gazebo.msgs.Time", ["/gazebo/other/clock"])] = 2 :=
  ((C6_counts_names_containing _).2.1 (by decide)).1.trans (by decide)

/-- C7, as stated, fails: two directories with the same message type and the
same set of member names, one of them listing a name twice, have different
counts. -/
theorem C7_counterexample :
    SameMembers [("gazebo.msgs.Pose", ["/gazebo/default/pose", "/gazebo/default/pose"])]
      [("gazebo.msgs.Pose", ["/gazebo/default/pose"])]
    ∧ WorldTopicCount [("gazebo.msgs.Pose", ["/gazebo/default/pose", "/gazebo/default/pose"])] = 2
    ∧ WorldTopicCount [("gazebo.msgs.Pose", ["/gazebo/default/pose"])] = 1 := by
  refine ⟨?_, by decide, by decide⟩
  exact List.Forall₂.cons ⟨rfl, fun t => by simp⟩ List.Forall₂.nil

/-- C7, amended: `WorldTopicCount` does not depend on the order of the entries:
two directories with the same message types and, for each of them, the same
topic names with the same multiplicities, in any order, have the same count. -/
theorem C7_order_irrelevant (m1 m2 : MsgTypes) (h : SameEntries m1 m2) :
    WorldTopicCount m1 = WorldTopicCount m2 := by
  rw [worldTopicCount_eq_mod, worldTopicCount_eq_mod, containingEntries_perm h]

theorem C7_order_irrelevant_witness :
    WorldTopicCount [("gazebo.msgs.Pose", ["/gazebo/default/pose", "/clock", "/gazebo/default/a"])]
      = WorldTopicCount [("gazebo.msgs.Pose", ["/clock", "/gazebo/default/a", "/gazebo/default/pose"])] :=
  C7_order_irrelevant _ _
    (List.Forall₂.cons ⟨rfl, by decide⟩ List.Forall₂.nil)

/-- C8: `WorldTopicCount` is the sum over the message types of the number of
entries containing "/gazebo/default", modulo 2^32; for a directory of fewer
than 2^32 entries it is that sum, hence additive over message types and over
the concatenation of topic lists; it never exceeds the number of entries and
is 0 for the empty map. -/
theorem C8_sum_of_containing_entries (m : MsgTypes) :
    WorldTopicCount m = containingEntries m % 2 ^ 32
    ∧ (totalEntries m < 2 ^ 32 → WorldTopicCount m = containingEntries m)
    ∧ (∀ a b : MsgTypes, m = a ++ b → totalEntries m < 2 ^ 32 →
        WorldTopicCount m = WorldTopicCount a + WorldTopicCount b)
    ∧ (∀ (msgType : String) (l1 l2 : List String) (rest : MsgTypes),
        m = (msgType, l1 ++ l2) :: rest → totalEntries m < 2 ^ 32 →
        WorldTopicCount m
          = WorldTopicCount [(msgType, l1)] + WorldTopicCount [(msgType, l2)]
            + WorldTopicCount rest)
    ∧ WorldTopicCount m ≤ totalEntries m
    ∧ WorldTopicCount [] = 0 := by
  refine ⟨worldTopicCount_eq_mod m, worldTopicCount_eq m, ?_, ?_, ?_, rfl⟩
  · intro a b hm h
    subst hm
    have ht := totalEntries_append a b
    rw [worldTopicCount_eq _ h, worldTopicCount_eq a (by change _ < 2 ^ 32; omega),
      worldTopicCount_eq b (by change _ < 2 ^ 32; omega), containingEntries_append]
  · intro msgType l1 l2 rest hm h
    subst hm
    have ht : totalEntries ((msgType, l1 ++ l2) :: rest)
        = l1.length + l2.length + totalEntries rest := by
      simp [totalEntries]
    have h1 : totalEntries [(msgType, l1)] = l1.length := by simp [totalEntries]
    have h2 : totalEntries [(msgType, l2)] = l2.length := by simp [totalEntries]
    rw [worldTopicCount_eq _ h, worldTopicCount_eq [(msgType, l1)] (by change _ < 2 ^ 32; omega),
      worldTopicCount_eq [(msgType, l2)] (by change _ < 2 ^ 32; omega),
      worldTopicCount_eq rest (by change _ < 2 ^ 32; omega)]
    simp [containingEntries]
  · rw [worldTopicCount_eq_mod]
    exact le_trans (Nat.mod_le _ _) (containingEntries_le_total m)

theorem C8_sum_of_containing_entries_witness :
    WorldTopicCount [("gazebo.msgs.Pose", ["/gazebo/default/pose/info", "/gazebo/robot/gazebo/default"]),
      ("gazebo.msgs.Time", ["/gazebo/other/clock", "/gazebo/default/clock"])] = 3 :=
  ((C8_sum_of_containing_entries _).2.1 (by decide)).trans (by decide)

/-- C9: for a physics engine name other than "ode" the test returns at once:
the library state is untouched, no library call is made, no assertion is
evaluated and no exception escapes. -/
theorem C9_non_ode_returns_immediately {σ W P : Type} (I : PhysicsIface σ W P)
    (GetParam : String) (h : GetParam ≠ "ode") (sys : σ) :
    TEST_P_RemoveWorldTest I GetParam sys
      = { sys := sys, world := none, physicsEngine := none, calls := [], checks := [],
          threw := false } := by
  simp [TEST_P_RemoveWorldTest, PhysicsIfaceTest.RemoveWorldTest, RemoveWorldTest.body, h,
    resetPhysicsEngine, resetWorld, TestState.start, StateT.run, bind, StateT.bind, pure,
    StateT.pure]

theorem C9_non_ode_returns_immediately_witness :
    TEST_P_RemoveWorldTest noWorldIface "bullet" ()
      = { sys := (), world := none, physicsEngine := none, calls := [], checks := [],
          threw := false } :=
  C9_non_ode_returns_immediately noWorldIface "bullet" (by decide) ()

/-- C10: for a directory of fewer than 2^32 entries, `WorldTopicCount` is 0
exactly when no topic name of any message type contains "/gazebo/default";
and a count of 0 is strictly below any positive earlier count, so the checks
of lines 88 and 135 imply the check of line 134. -/
theorem C10_zero_iff_no_topic (m : MsgTypes) (h : totalEntries m < 2 ^ 32) :
    (WorldTopicCount m = 0 ↔ ∀ msgType ∈ m, ∀ topic ∈ msgType.2, ¬ ContainsDefault topic)
    ∧ (∀ msgTypesBefore : MsgTypes, WorldTopicCount msgTypesBefore > 0 →
        WorldTopicCount m = 0 → WorldTopicCount m < WorldTopicCount msgTypesBefore) := by
  refine ⟨?_, fun _ hpos h0 => by rw [h0]; exact hpos⟩
  rw [worldTopicCount_eq m h]
  exact containingEntries_eq_zero_iff m

theorem C10_zero_iff_no_topic_witness :
    totalEntries [("gazebo.msgs.Time", ["/gazebo/other/clock"])] < 2 ^ 32
    ∧ WorldTopicCount [("gazebo.msgs.Time", ["/gazebo/other/clock"])] = 0 :=
  ⟨by decide, (C10_zero_iff_no_topic _ (by decide)).1.mpr (by decide)⟩

end Gazebo
